import Mathlib

/-
Verification of the tissue static-site-generator build pipeline
(`tissue.py` / `tissue_config.py`).

Shallow embedding notes:
* Front-matter values are modelled by `Scalar` (none / bool / int / string)
  and `Val` (a scalar or a flat list of scalars).  The Python code inspects
  only the top level of a value (`isinstance(x, str)` / `isinstance(x, list)`),
  so flat lists suffice for every construct the pipeline touches.
* A metadata mapping is an association list with first-match lookup,
  mirroring a Python dict as used here (unique keys, `get` with default).
* A source document is its path relative to `MARKDOWN_DIR`, split into
  directory components `dirs` and the file-name `stem` (the file on disk is
  `stem ++ ".md"`, as guaranteed by `rglob("*.md")`), plus metadata and body.
* The external markdown-to-HTML converter is an opaque parameter
  `f : String → String`.
* Filesystem writes are modelled by the pure values the code computes:
  the renderer's output path for each page, the list serialized to
  `search_index.json`, and the `<url><loc>…</loc></url>` sitemap entries.
  Operations that Python can only perform on strings (e.g. `.strip("/")`)
  return `Option` when applied to an arbitrary `Val`.
-/

inductive Scalar where
  | sNone : Scalar
  | sBool : Bool → Scalar
  | sInt : Int → Scalar
  | sStr : String → Scalar
deriving DecidableEq, Repr

inductive Val where
  | prim : Scalar → Val
  | vList : List Scalar → Val
deriving DecidableEq, Repr

def vNone : Val := Val.prim Scalar.sNone

def vBool (b : Bool) : Val := Val.prim (Scalar.sBool b)

def vInt (n : Int) : Val := Val.prim (Scalar.sInt n)

def vStr (s : String) : Val := Val.prim (Scalar.sStr s)

/-- Python truthiness of a front-matter value (`not x`, `if x`, `x or y`). -/
def truthy : Val → Bool
  | Val.prim Scalar.sNone => false
  | Val.prim (Scalar.sBool b) => b
  | Val.prim (Scalar.sInt n) => decide (n ≠ 0)
  | Val.prim (Scalar.sStr s) => !s.isEmpty
  | Val.vList l => !l.isEmpty

def isStrVal : Val → Bool
  | Val.prim (Scalar.sStr _) => true
  | _ => false

def isListVal : Val → Bool
  | Val.vList _ => true
  | _ => false

def isStrScalar : Scalar → Bool
  | Scalar.sStr _ => true
  | _ => false

/-- A front-matter mapping: association list, first-match lookup. -/
def Meta := List (String × Val)

/-- `metadata.get(k, dflt)`. -/
def metaGet (m : Meta) (k : String) (dflt : Val) : Val :=
  match m.find? (fun kv => decide (kv.1 = k)) with
  | some kv => kv.2
  | none => dflt

/-- `k in metadata.keys()`. -/
def hasKey (m : Meta) (k : String) : Bool :=
  (m.find? (fun kv => decide (kv.1 = k))).isSome

-- REQUIRED_KEYS = {"title", "desc", "image", "template"}  (tissue.py line 16)
def REQUIRED_KEYS : List String := ["title", "desc", "image", "template"]

-- OPTIONAL_KEYS = {"permalink", "pages_exclude", "groups"}  (tissue.py line 17)
def OPTIONAL_KEYS : List String := ["permalink", "pages_exclude", "groups"]

def KNOWN_KEYS : List String := REQUIRED_KEYS ++ OPTIONAL_KEYS

/-- `missing = REQUIRED_KEYS - metadata.keys()`  (tissue.py line 21). -/
def missingKeys (m : Meta) : List String :=
  REQUIRED_KEYS.filter (fun k => !hasKey m k)

/-- `unknown = set(metadata.keys()) - KNOWN_KEYS`  (tissue.py line 22). -/
def unknownKeys (m : Meta) : List String :=
  (m.map Prod.fst).filter (fun k => !KNOWN_KEYS.contains k)

structure ValidationResult where
  missing : List String
  unknown : List String
  warned : Bool
  valid : Bool
deriving DecidableEq, Repr

/-- `validate_frontmatter`  (tissue.py lines 20-29): computes the missing and
unknown key sets, prints a diagnostic for each when non-empty (`warned`
records whether the unknown-key warning fired), and returns `not missing`. -/
def validate_frontmatter (m : Meta) : ValidationResult :=
  let missing := missingKeys m
  let unknown := unknownKeys m
  { missing := missing
  , unknown := unknown
  , warned := !unknown.isEmpty
  , valid := missing.isEmpty }

/-- A source document: path relative to `MARKDOWN_DIR` (directory components
`dirs` plus file-name stem; the file on disk is `stem ++ ".md"`), parsed
front-matter and body. -/
structure Document where
  dirs : List String
  stem : String
  meta : Meta
  body : String

/-- The characters after the last `'.'` of a name, in reverse order (the
whole name reversed when it has no dot). -/
def suffixAfter (cs : List Char) : List Char :=
  cs.reverse.takeWhile (fun c => c ≠ '.')

/-- pathlib `PurePath.suffix`: the last `'.'`-suffix of a file name, empty
unless the last dot sits strictly between the first and last character. -/
def pathSuffix (name : String) : String :=
  if (suffixAfter name.data).length = name.data.length then ""
  else if (suffixAfter name.data).length = 0 then ""
  else if (suffixAfter name.data).length + 1 = name.data.length then ""
  else String.mk ('.' :: (suffixAfter name.data).reverse)

/-- pathlib `with_suffix("")`: drop the file name's suffix. -/
def withSuffixEmpty (name : String) : String :=
  String.mk (name.data.take (name.data.length - (pathSuffix name).data.length))

/-- `generate_permalink`  (tissue.py lines 31-33):
`"/" + rel.with_suffix("").as_posix() + "/"` where `rel` is the source path
relative to `MARKDOWN_DIR`. -/
def generate_permalink (d : Document) : String :=
  "/" ++ String.intercalate "/" (d.dirs ++ [withSuffixEmpty (d.stem ++ ".md")]) ++ "/"

/-- `md_path.relative_to(MARKDOWN_DIR).parent.name or "root"`  (line 74). -/
def sectionName (d : Document) : String :=
  match d.dirs.getLast? with
  | some s => if s.isEmpty then "root" else s
  | none => "root"

/-- Normalization of the declared `groups` value  (tissue.py lines 76-80):
a string becomes a one-element list, a list is kept as-is, anything else
becomes the empty list. -/
def normalizeGroups : Val → List Scalar
  | Val.prim (Scalar.sStr s) => [Scalar.sStr s]
  | Val.vList l => l
  | _ => []

structure PageRecord where
  content : String
  title : Val
  desc : Val
  image : Val
  permalink : Val
  template : Val
  groups : List Scalar
  pages_exclude : Val
deriving DecidableEq, Repr

/-- One iteration of the `build_index` loop body  (tissue.py lines 72-93),
for a document that passed validation.  `f` is the external markdown-to-HTML
converter. -/
def mkRecord (f : String → String) (d : Document) : PageRecord :=
  { content := f d.body
  , title := metaGet d.meta "title" (vStr "")
  , desc := metaGet d.meta "desc" (vStr "")
  , image := metaGet d.meta "image" (vStr "")
  , permalink :=
      let p := metaGet d.meta "permalink" vNone
      if truthy p then p else vStr (generate_permalink d)
  , template := metaGet d.meta "template" (vStr "template_default.html")
  , groups := Scalar.sStr (sectionName d) :: normalizeGroups (metaGet d.meta "groups" (Val.vList []))
  , pages_exclude := metaGet d.meta "pages_exclude" (vBool false) }

/-- `build_index`  (tissue.py lines 64-95): skip documents that fail
validation, turn the rest into page records, in traversal order. -/
def build_index (f : String → String) (docs : List Document) : List PageRecord :=
  docs.filterMap (fun d =>
    if (validate_frontmatter d.meta).valid then some (mkRecord f d) else none)

/-- Lookup in the auditor's `seen` dict (`permalink in seen` /
`seen[permalink]`).  The dict is modelled as an association list with unique
keys; insertion order is never observed, so new entries are consed on. -/
def auditSeenFind (seen : List (Val × Val)) (p : Val) : Option (Val × Val) :=
  seen.find? (fun kv => decide (kv.1 = p))

/-- The loop of `check_for_duplicate_permalinks`  (tissue.py lines 97-104):
for each page in order, if its permalink was seen before emit a diagnostic
`(first-seen title, this page's title, permalink)`, otherwise record the
permalink with this page's title. -/
def auditGo : List (Val × Val) → List PageRecord → List (Val × Val × Val)
  | _, [] => []
  | seen, page :: rest =>
    match auditSeenFind seen page.permalink with
    | some kv => (kv.2, page.title, page.permalink) :: auditGo seen rest
    | none => auditGo ((page.permalink, page.title) :: seen) rest

/-- `check_for_duplicate_permalinks`  (tissue.py lines 97-104), returning the
list of printed collision diagnostics. -/
def check_for_duplicate_permalinks (index : List PageRecord) : List (Val × Val × Val) :=
  auditGo [] index

/-- Number of pages in `index` owning permalink `p`. -/
def ownersCount (p : Val) (index : List PageRecord) : Nat :=
  (index.filter (fun r => decide (r.permalink = p))).length

/-- Number of collision diagnostics in `diags` that name permalink `p`. -/
def diagsForCount (p : Val) (diags : List (Val × Val × Val)) : Nat :=
  (diags.filter (fun t => decide (t.2.2 = p))).length

/-- Split a character list into its non-empty `'/'`-separated components,
accumulating the current component in reverse in `cur` (pathlib drops empty
path segments). -/
def ppAux (cur : List Char) : List Char → List (List Char)
  | [] => if cur.isEmpty then [] else [cur.reverse]
  | c :: rest =>
    if c = '/' then
      if cur.isEmpty then ppAux [] rest else cur.reverse :: ppAux [] rest
    else ppAux (c :: cur) rest

/-- pathlib path components of a relative path string: non-empty
`'/'`-separated segments, with `"."` segments dropped (pathlib normalizes
them away). -/
def pathParts (s : String) : List String :=
  ((ppAux [] s.data).filter (fun c => c ≠ ['.'])).map String.mk

/-- Python `s.strip("/")`: drop leading and trailing `'/'` characters. -/
def stripSlashes (s : String) : String :=
  String.mk (((s.data.dropWhile (fun c => c = '/')).reverse.dropWhile (fun c => c = '/')).reverse)

/-- Python `s.lstrip("/")`. -/
def lstripSlashes (s : String) : String :=
  String.mk (s.data.dropWhile (fun c => c = '/'))

/-- Python `s.rstrip("/")`. -/
def rstripSlashes (s : String) : String :=
  String.mk ((s.data.reverse.dropWhile (fun c => c = '/')).reverse)

/-- The renderer's output path for one permalink string, as path components
relative to `BUILD_DIR`  (tissue.py lines 115-117):
`out_path = BUILD_DIR / permalink.strip("/")`, then append `index.html` when
`out_path.suffix == ""`.  An empty component list means `out_path` is
`BUILD_DIR` itself, whose name `"public"` has no suffix. -/
def outputRelPath (permalink : String) : List String :=
  let parts := pathParts (stripSlashes permalink)
  match parts.getLast? with
  | none => ["index.html"]
  | some last => if pathSuffix last = "" then parts ++ ["index.html"] else parts

/-- Modelled from the spec: "Compute output file path from `permalink`: strip
leading slash, treat as relative path under the output root; if the resulting
path has no file-extension suffix, append an `index.html` filename."  Only
leading slashes are stripped here; the remainder is read as a relative path
(components per path semantics). -/
def outputRelPath_spec (permalink : String) : List String :=
  let parts := pathParts (lstripSlashes permalink)
  match parts.getLast? with
  | none => ["index.html"]
  | some last => if pathSuffix last = "" then parts ++ ["index.html"] else parts

/-- The output path the renderer writes a page to  (tissue.py lines 115-119).
Python computes `page["permalink"].strip("/")`, which only succeeds on a
string permalink; a non-string permalink would raise, modelled as `none`. -/
def renderTarget (r : PageRecord) : Option (List String) :=
  match r.permalink with
  | Val.prim (Scalar.sStr s) => some (outputRelPath s)
  | _ => none

/-- `render_pages`  (tissue.py lines 107-121), abstracted to the list of
output paths written, one per page in index order. -/
def render_pages_targets (index : List PageRecord) : List (Option (List String)) :=
  index.map renderTarget

/-- `generate_search_index`  (tissue.py lines 134-141): the list serialized
to `search_index.json` is the pages whose `pages_exclude` value is falsy,
and it is also the function's return value. -/
def generate_search_index (index : List PageRecord) : List PageRecord :=
  index.filter (fun p => !truthy p.pages_exclude)

-- sitemap_base_url = "https://domain.io"  (tissue_config.py line 12)
def sitemap_base_url : String := "https://domain.io"

/-- One `<url><loc>…</loc></url>` sitemap entry  (tissue.py lines 146-147):
`sitemap_base_url.rstrip("/") + page["permalink"]`.  String concatenation
with a non-string permalink would raise, modelled as `none`. -/
def sitemapEntry (r : PageRecord) : Option String :=
  match r.permalink with
  | Val.prim (Scalar.sStr s) =>
    some ("<url><loc>" ++ (rstripSlashes sitemap_base_url ++ s) ++ "</loc></url>")
  | _ => none

/-- `generate_sitemap`  (tissue.py lines 143-156), abstracted to the list of
`<url>` entries written into `sitemap.xml`. -/
def generate_sitemap_entries (pages : List PageRecord) : List (Option String) :=
  pages.map sitemapEntry

/-- §8 scenario 6: `markdown/blog/post1.md` with `groups: "featured"` and no
explicit permalink. -/
def demoDoc : Document :=
  { dirs := ["blog"], stem := "post1"
  , meta := [("title", vStr "Post 1"), ("desc", vStr "d"), ("image", vStr "i"),
             ("template", vStr "t.html"), ("groups", vStr "featured")]
  , body := "hello" }

/-- A valid document marked `pages_exclude: true`. -/
def demoExcl : Document :=
  { dirs := ["blog"], stem := "secret"
  , meta := [("title", vStr "Secret"), ("desc", vStr "d"), ("image", vStr "i"),
             ("template", vStr "t.html"), ("pages_exclude", vBool true)]
  , body := "shh" }

/-- A valid document that declares `permalink: ""` (an empty string). -/
def docEmptyPermalink : Document :=
  { dirs := [], stem := "about"
  , meta := [("title", vStr "About"), ("desc", vStr "d"), ("image", vStr "i"),
             ("template", vStr "t.html"), ("permalink", vStr "")]
  , body := "a" }

/-- A valid document whose `groups` value is a list containing a non-string. -/
def docIntGroups : Document :=
  { dirs := [], stem := "num"
  , meta := [("title", vStr "Num"), ("desc", vStr "d"), ("image", vStr "i"),
             ("template", vStr "t.html"), ("groups", Val.vList [Scalar.sInt 7])]
  , body := "n" }

/-- A document missing the required key `image` but carrying an unknown key. -/
def docBad : Document :=
  { dirs := [], stem := "bad"
  , meta := [("title", vStr "Bad"), ("desc", vStr "d"),
             ("template", vStr "t.html"), ("mystery", vStr "x")]
  , body := "b" }

/-- A page record whose `pages_exclude` is the (truthy) string `"false"`. -/
def strFalseRec : PageRecord :=
  { content := "c", title := vStr "SF", desc := vStr "d", image := vStr "i"
  , permalink := vStr "/sf/", template := vStr "t.html"
  , groups := [Scalar.sStr "root"], pages_exclude := vStr "false" }

/-- First owner of the shared permalink `"/about/"`  (§8 scenario 7). -/
def dupA : PageRecord :=
  { content := "a", title := vStr "About A", desc := vStr "d", image := vStr "i"
  , permalink := vStr "/about/", template := vStr "t.html"
  , groups := [Scalar.sStr "root"], pages_exclude := vBool false }

/-- Second owner of the shared permalink `"/about/"`  (§8 scenario 7). -/
def dupB : PageRecord :=
  { content := "b", title := vStr "About B", desc := vStr "d", image := vStr "i"
  , permalink := vStr "/about/", template := vStr "t.html"
  , groups := [Scalar.sStr "root"], pages_exclude := vBool false }

/-- A page record with `pages_exclude = false`. -/
def rIncl : PageRecord :=
  { content := "c", title := vStr "In", desc := vStr "d", image := vStr "i"
  , permalink := vStr "/in/", template := vStr "t.html"
  , groups := [Scalar.sStr "root"], pages_exclude := vBool false }

/-- A page record with `pages_exclude = true`. -/
def rExcl : PageRecord :=
  { content := "c", title := vStr "Out", desc := vStr "d", image := vStr "i"
  , permalink := vStr "/out/", template := vStr "t.html"
  , groups := [Scalar.sStr "root"], pages_exclude := vBool true }

structure BuildArtifacts where
  diags : List (Val × Val × Val)
  rendered : List (Option (List String))
  search_pages : List PageRecord
  sitemap : List (Option String)
deriving DecidableEq, Repr

/-- The pure core of `main`  (tissue.py lines 158-168): build the index,
audit permalinks, render every page, write the search index, and write the
sitemap from `searchable_pages` — the value `generate_search_index`
returned. -/
def mainArtifacts (f : String → String) (docs : List Document) : BuildArtifacts :=
  let index := build_index f docs
  let searchable := generate_search_index index
  { diags := check_for_duplicate_permalinks index
  , rendered := render_pages_targets index
  , search_pages := searchable
  , sitemap := generate_sitemap_entries searchable }

/-- Modelled from the spec: "normalized: a single string becomes a
one-element sequence; anything not a string or list of strings is discarded
silently" — under this reading a list containing a non-string is itself
discarded. -/
def normalizeGroups_spec : Val → List Scalar
  | Val.prim (Scalar.sStr s) => [Scalar.sStr s]
  | Val.vList l => if l.all isStrScalar then l else []
  | _ => []

/-- A valid document declaring `permalink: "/custom/"`. -/
def docDeclPermalink : Document :=
  { dirs := [], stem := "custom-src"
  , meta := [("title", vStr "Custom"), ("desc", vStr "d"), ("image", vStr "i"),
             ("template", vStr "t.html"), ("permalink", vStr "/custom/")]
  , body := "c" }

/-- First document declaring `permalink: "/about/"`  (§8 scenario 7). -/
def docAboutA : Document :=
  { dirs := [], stem := "about-a"
  , meta := [("title", vStr "About A"), ("desc", vStr "d"), ("image", vStr "i"),
             ("template", vStr "t.html"), ("permalink", vStr "/about/")]
  , body := "a" }

/-- Second document declaring `permalink: "/about/"`  (§8 scenario 7). -/
def docAboutB : Document :=
  { dirs := [], stem := "about-b"
  , meta := [("title", vStr "About B"), ("desc", vStr "d"), ("image", vStr "i"),
             ("template", vStr "t.html"), ("permalink", vStr "/about/")]
  , body := "b" }

/-! ### Helper lemmas -/

theorem filterMap_if_eq_filter_map {α β : Type} (p : α → Bool) (g : α → β) (l : List α) :
    l.filterMap (fun a => if p a then some (g a) else none) = (l.filter p).map g := by
  induction l with
  | nil => rfl
  | cons a l ih =>
    by_cases h : p a <;> simp [List.filterMap_cons, List.filter_cons, h, ih]

theorem metaGet_of_not_hasKey (m : Meta) (k : String) (dflt : Val)
    (h : hasKey m k = false) : metaGet m k dflt = dflt := by
  unfold metaGet
  unfold hasKey at h
  cases hf : m.find? (fun kv => decide (kv.1 = k)) with
  | none => simp
  | some kv => rw [hf] at h; simp at h

theorem ppAux_append_slash (xs : List Char) : ∀ cur : List Char,
    ppAux cur (xs ++ ['/']) = ppAux cur xs := by
  induction xs with
  | nil =>
    intro cur
    by_cases h : cur.isEmpty <;> simp [ppAux, h]
  | cons x xs ih =>
    intro cur
    by_cases hx : x = '/'
    · subst hx
      by_cases h : cur.isEmpty <;> simp [ppAux, h, ih]
    · simp [ppAux, hx, ih]

theorem ppAux_append_all_slash (t : List Char) (ht : ∀ c ∈ t, c = '/') :
    ∀ xs cur : List Char, ppAux cur (xs ++ t) = ppAux cur xs := by
  induction t with
  | nil => intro xs cur; simp
  | cons c t ih =>
    intro xs cur
    have hc : c = '/' := ht c (by simp)
    subst hc
    have hxs : xs ++ '/' :: t = (xs ++ ['/']) ++ t := by simp
    rw [hxs, ih (fun c hc => ht c (by simp [hc])) (xs ++ ['/']) cur,
      ppAux_append_slash]

theorem ppAux_rstrip (y : List Char) :
    ppAux [] ((y.reverse.dropWhile (fun c => c = '/')).reverse) = ppAux [] y := by
  have hsplit : y = (y.reverse.dropWhile (fun c => c = '/')).reverse ++
      (y.reverse.takeWhile (fun c => c = '/')).reverse := by
    have h := List.takeWhile_append_dropWhile (p := fun c => c = '/') (l := y.reverse)
    calc y = y.reverse.reverse := by rw [List.reverse_reverse]
    _ = (y.reverse.takeWhile (fun c => c = '/') ++
          y.reverse.dropWhile (fun c => c = '/')).reverse := by rw [h]
    _ = _ := by rw [List.reverse_append]
  have hall : ∀ c ∈ (y.reverse.takeWhile (fun c => c = '/')).reverse, c = '/' := by
    intro c hc
    rw [List.mem_reverse] at hc
    have := List.mem_takeWhile_imp hc
    simpa using this
  calc ppAux [] ((y.reverse.dropWhile (fun c => c = '/')).reverse)
      = ppAux [] ((y.reverse.dropWhile (fun c => c = '/')).reverse ++
          (y.reverse.takeWhile (fun c => c = '/')).reverse) := by
        rw [ppAux_append_all_slash _ hall]
  _ = ppAux [] y := by rw [← hsplit]

theorem pathParts_strip_eq_lstrip (s : String) :
    pathParts (stripSlashes s) = pathParts (lstripSlashes s) := by
  unfold pathParts stripSlashes lstripSlashes
  have h := ppAux_rstrip (s.data.dropWhile (fun c => c = '/'))
  simp only [String.mk] at *
  rw [h]

theorem outputRelPath_eq_spec (s : String) : outputRelPath s = outputRelPath_spec s := by
  unfold outputRelPath outputRelPath_spec
  rw [pathParts_strip_eq_lstrip]

theorem auditGo_count (p : Val) : ∀ (rest : List PageRecord) (seen : List (Val × Val)),
    diagsForCount p (auditGo seen rest) =
      if (auditSeenFind seen p).isSome then ownersCount p rest
      else ownersCount p rest - 1 := by
  intro rest
  induction rest with
  | nil =>
    intro seen
    by_cases h : (auditSeenFind seen p).isSome <;>
      simp [auditGo, diagsForCount, ownersCount, h]
  | cons page rest ih =>
    intro seen
    cases hf : auditSeenFind seen page.permalink with
    | some kv =>
      by_cases hQ : page.permalink = p
      · have hs : (auditSeenFind seen p).isSome = true := by
          rw [← hQ, hf]; rfl
        have hown : ownersCount p (page :: rest) = ownersCount p rest + 1 := by
          simp [ownersCount, List.filter_cons, hQ]
        have hdg : diagsForCount p (auditGo seen (page :: rest)) =
            diagsForCount p (auditGo seen rest) + 1 := by
          simp only [auditGo, hf]
          simp [diagsForCount, List.filter_cons, hQ]
        rw [hdg, ih seen, if_pos hs, if_pos hs, hown]
      · have hown : ownersCount p (page :: rest) = ownersCount p rest := by
          simp [ownersCount, List.filter_cons, hQ]
        have hdg : diagsForCount p (auditGo seen (page :: rest)) =
            diagsForCount p (auditGo seen rest) := by
          simp [auditGo, hf, diagsForCount, List.filter_cons, hQ]
        rw [hdg, ih seen, hown]
    | none =>
      have hdg : diagsForCount p (auditGo seen (page :: rest)) =
          diagsForCount p (auditGo ((page.permalink, page.title) :: seen) rest) := by
        simp [auditGo, hf]
      by_cases hQ : page.permalink = p
      · have hsnone : (auditSeenFind seen p).isSome = false := by
          rw [← hQ, hf]; rfl
        have hscons : (auditSeenFind ((page.permalink, page.title) :: seen) p).isSome = true := by
          unfold auditSeenFind
          rw [List.find?_cons_of_pos _ (by simp [hQ])]
          rfl
        have hown : ownersCount p (page :: rest) = ownersCount p rest + 1 := by
          simp [ownersCount, List.filter_cons, hQ]
        rw [hdg, ih ((page.permalink, page.title) :: seen), if_pos hscons,
          if_neg (by simp [hsnone]), hown]
        omega
      · have hscons : auditSeenFind ((page.permalink, page.title) :: seen) p =
            auditSeenFind seen p := by
          unfold auditSeenFind
          rw [List.find?_cons_of_neg _ (by simp [hQ])]
        have hown : ownersCount p (page :: rest) = ownersCount p rest := by
          simp [ownersCount, List.filter_cons, hQ]
        rw [hdg, ih ((page.permalink, page.title) :: seen), hscons, hown]

theorem withSuffixEmpty_md (stem : String) (h : stem ≠ "") :
    withSuffixEmpty (stem ++ ".md") = stem := by
  have hdata : (stem ++ ".md").data = stem.data ++ ['.', 'm', 'd'] := by
    rw [String.data_append]
  have hlen : stem.data.length ≠ 0 := by
    intro hc
    apply h
    cases stem with
    | mk data =>
      cases data with
      | nil => rfl
      | cons c cs => simp at hc
  have hafter : suffixAfter (stem ++ ".md").data = ['d', 'm'] := by
    unfold suffixAfter
    rw [hdata]
    have hrev : (stem.data ++ ['.', 'm', 'd']).reverse = 'd' :: 'm' :: '.' :: stem.data.reverse := by
      simp
    rw [hrev]
    simp [List.takeWhile_cons]
  have hsuf : pathSuffix (stem ++ ".md") = String.mk ['.', 'm', 'd'] := by
    unfold pathSuffix
    rw [hafter, hdata]
    have hL : (stem.data ++ ['.', 'm', 'd']).length = stem.data.length + 3 := by simp
    rw [hL]
    rw [if_neg (by simp only [List.length_cons, List.length_nil]; omega),
      if_neg (by simp only [List.length_cons, List.length_nil]; omega),
      if_neg (by simp only [List.length_cons, List.length_nil]; omega)]
    rfl
  unfold withSuffixEmpty
  rw [hsuf, hdata]
  have h3 : (String.mk ['.', 'm', 'd']).data.length = 3 := rfl
  rw [h3]
  have hL : (stem.data ++ ['.', 'm', 'd']).length = stem.data.length + 3 := by simp
  rw [hL]
  have h33 : stem.data.length + 3 - 3 = stem.data.length := by omega
  rw [h33]
  rw [List.take_left]

/-! ### Claims -/

/-- C3 (corrected), counterexample to the claim as stated: the document
`docEmptyPermalink` declares `permalink: ""`, yet its Page Record's
permalink is the derived `"/about/"`, not the declared value verbatim. -/
theorem c3_counterexample :
    metaGet docEmptyPermalink.meta "permalink" vNone = vStr "" ∧
    (mkRecord (fun s => s) docEmptyPermalink).permalink ≠ vStr "" ∧
    (mkRecord (fun s => s) docEmptyPermalink).permalink = vStr "/about/" := by
  refine ⟨by decide, by decide, by decide⟩

/-- C3 (amended): for every valid document whose metadata declares a truthy
`permalink` value (in particular any non-empty string), the Page Record's
permalink equals that declared value verbatim; a falsy declared value falls
back to the derived permalink. -/
theorem c3_declared_permalink_verbatim (f : String → String) (d : Document)
    (h : truthy (metaGet d.meta "permalink" vNone) = true) :
    (mkRecord f d).permalink = metaGet d.meta "permalink" vNone := by
  simp only [mkRecord, h, if_pos]

theorem c3_declared_permalink_verbatim_witness :
    truthy (metaGet docDeclPermalink.meta "permalink" vNone) = true ∧
    (mkRecord (fun s => s) docDeclPermalink).permalink =
      metaGet docDeclPermalink.meta "permalink" vNone := by
  refine ⟨by decide, ?_⟩
  exact c3_declared_permalink_verbatim (fun s => s) docDeclPermalink (by decide)

/-- C5 (confirmed): for every valid document with no explicit `permalink`
key, the derived permalink is `"/"`, then the source path relative to the
document root with the `.md` extension stripped and components joined by
forward slashes, then `"/"`. -/
theorem c5_derived_permalink (f : String → String) (d : Document)
    (hstem : d.stem ≠ "") (h : hasKey d.meta "permalink" = false) :
    (mkRecord f d).permalink =
      vStr ("/" ++ String.intercalate "/" (d.dirs ++ [d.stem]) ++ "/") := by
  have hget : metaGet d.meta "permalink" vNone = vNone :=
    metaGet_of_not_hasKey d.meta "permalink" vNone h
  simp only [mkRecord, hget]
  have htr : truthy vNone = false := rfl
  rw [if_neg (by rw [htr]; exact Bool.false_ne_true)]
  unfold generate_permalink
  rw [withSuffixEmpty_md d.stem hstem]

theorem c5_derived_permalink_witness :
    demoDoc.stem ≠ "" ∧ hasKey demoDoc.meta "permalink" = false ∧
    (mkRecord (fun s => s) demoDoc).permalink =
      vStr ("/" ++ String.intercalate "/" (demoDoc.dirs ++ [demoDoc.stem]) ++ "/") := by
  refine ⟨by decide, by decide, ?_⟩
  exact c5_derived_permalink (fun s => s) demoDoc (by decide) (by decide)

/-- C4 (corrected), counterexample to the claim as stated: `docIntGroups`
declares `groups: [7]`, a list that is not a list of strings; the claim's
normalization would discard it, but the code keeps the list verbatim, so the
Page Record's groups are `["root", 7]`. -/
theorem c4_counterexample :
    metaGet docIntGroups.meta "groups" (Val.vList []) = Val.vList [Scalar.sInt 7] ∧
    (mkRecord (fun s => s) docIntGroups).groups ≠
      Scalar.sStr (sectionName docIntGroups) ::
        normalizeGroups_spec (Val.vList [Scalar.sInt 7]) ∧
    (mkRecord (fun s => s) docIntGroups).groups = [Scalar.sStr "root", Scalar.sInt 7] := by
  refine ⟨by decide, by decide, by decide⟩

/-- C4 (amended): every Page Record's groups are the singleton of the
source document's parent-directory name (`"root"` at the tree root) followed
by the normalized declared groups, where normalization maps a single string
to a one-element sequence, keeps any declared list verbatim (its elements
are not checked to be strings), and silently discards every other value. -/
theorem c4_groups_shape (f : String → String) (d : Document) :
    (mkRecord f d).groups =
      Scalar.sStr (sectionName d) :: normalizeGroups (metaGet d.meta "groups" (Val.vList [])) ∧
    ((mkRecord f d).groups).head? = some (Scalar.sStr (sectionName d)) ∧
    (∀ s, normalizeGroups (vStr s) = [Scalar.sStr s]) ∧
    (∀ l, normalizeGroups (Val.vList l) = l) ∧
    (∀ v, isStrVal v = false → isListVal v = false → normalizeGroups v = []) := by
  refine ⟨rfl, rfl, fun s => rfl, fun l => rfl, ?_⟩
  intro v hs hl
  cases v with
  | vList l => simp [isListVal] at hl
  | prim sc =>
    cases sc with
    | sStr s => simp [isStrVal] at hs
    | sNone => rfl
    | sBool b => rfl
    | sInt n => rfl

theorem c4_groups_shape_witness :
    (mkRecord (fun s => s) demoDoc).groups = [Scalar.sStr "blog", Scalar.sStr "featured"] ∧
    normalizeGroups (vBool true) = [] := by
  constructor
  · rw [(c4_groups_shape (fun s => s) demoDoc).1]; decide
  · exact (c4_groups_shape (fun s => s) demoDoc).2.2.2.2 (vBool true) rfl rfl

/-- C9 (confirmed): a Page Record is serialized into `search_index.json`
precisely when its stored `pages_exclude` value is falsy; the truthy string
`"false"` therefore excludes a page, while falsy non-boolean values (`None`,
`0`) — and the `false` default used when the key is absent — include it. -/
theorem c9_search_membership_truthiness :
    (∀ (index : List PageRecord) (r : PageRecord),
        r ∈ generate_search_index index ↔ r ∈ index ∧ truthy r.pages_exclude = false) ∧
    truthy (vStr "false") = true ∧
    truthy vNone = false ∧
    truthy (vInt 0) = false ∧
    (∀ (f : String → String) (d : Document), hasKey d.meta "pages_exclude" = false →
        (mkRecord f d).pages_exclude = vBool false) ∧
    generate_search_index [strFalseRec] = [] := by
  refine ⟨?_, rfl, rfl, by decide, ?_, by decide⟩
  · intro index r
    unfold generate_search_index
    rw [List.mem_filter]
    simp
  · intro f d h
    simp only [mkRecord]
    exact metaGet_of_not_hasKey d.meta "pages_exclude" (vBool false) h

theorem c9_search_membership_truthiness_witness :
    (mkRecord (fun s => s) demoDoc).pages_exclude = vBool false ∧
    truthy (vStr "false") = true := by
  refine ⟨?_, c9_search_membership_truthiness.2.1⟩
  exact c9_search_membership_truthiness.2.2.2.2.1 (fun s => s) demoDoc (by decide)

/-- C8 (confirmed): for an index whose records carry boolean `pages_exclude`
values — the type §3 of the spec assigns to the field — every record in the
serialized search index has `pages_exclude = false`, and every record with
`pages_exclude = true` is absent from it. -/
theorem c8_search_index_roundtrip (index : List PageRecord)
    (hb : ∀ r ∈ index, ∃ b, r.pages_exclude = vBool b) :
    (∀ r ∈ generate_search_index index, r.pages_exclude = vBool false) ∧
    (∀ r ∈ index, r.pages_exclude = vBool true → r ∉ generate_search_index index) := by
  constructor
  · intro r hr
    have hm := List.mem_filter.mp hr
    obtain ⟨b, hbeq⟩ := hb r hm.1
    have hp := hm.2
    rw [hbeq] at hp ⊢
    cases b with
    | false => rfl
    | true => simp [truthy, vBool] at hp
  · intro r _ htrue hc
    have hp := (List.mem_filter.mp hc).2
    rw [htrue] at hp
    simp [truthy, vBool] at hp

theorem c8_search_index_roundtrip_witness :
    rIncl.pages_exclude = vBool false ∧
    rExcl ∉ generate_search_index [rIncl, rExcl] := by
  have h := c8_search_index_roundtrip [rIncl, rExcl] (by decide)
  exact ⟨h.1 rIncl (by decide), h.2 rExcl (by decide) (by decide)⟩

/-- C10 (confirmed): the renderer's output path factors through
`permalink.strip("/")`, so permalinks differing only in leading or trailing
slashes — such as `"/foo"`, `"/foo/"` and `"foo"` — are written to the same
output file. -/
theorem c10_output_path_strips_slashes :
    (∀ p q : String, stripSlashes p = stripSlashes q → outputRelPath p = outputRelPath q) ∧
    outputRelPath "/foo" = ["foo", "index.html"] ∧
    outputRelPath "/foo/" = ["foo", "index.html"] ∧
    outputRelPath "foo" = ["foo", "index.html"] := by
  refine ⟨?_, by decide, by decide, by decide⟩
  intro p q h
  unfold outputRelPath
  rw [h]

theorem c10_output_path_strips_slashes_witness :
    outputRelPath "/bar" = outputRelPath "bar/" := by
  exact c10_output_path_strips_slashes.1 "/bar" "bar/" (by decide)

/-- C6 (confirmed): the renderer's output path equals the spec's recipe —
strip the leading slash, read the remainder as a path under the output root,
and append `index.html` exactly when the last component has no
file-extension suffix; in particular `"/blog/post1/"` is written to
`public/blog/post1/index.html`. -/
theorem c6_output_path :
    (∀ s : String, outputRelPath s = outputRelPath_spec s) ∧
    outputRelPath "/blog/post1/" = ["blog", "post1", "index.html"] ∧
    (∀ (r : PageRecord) (s : String), r.permalink = vStr s →
        renderTarget r = some (outputRelPath s)) ∧
    (∀ (s last : String), (pathParts (stripSlashes s)).getLast? = some last →
        outputRelPath s =
          if pathSuffix last = "" then pathParts (stripSlashes s) ++ ["index.html"]
          else pathParts (stripSlashes s)) := by
  refine ⟨outputRelPath_eq_spec, by decide, ?_, ?_⟩
  · intro r s h
    unfold renderTarget
    rw [h]
    rfl
  · intro s last h
    unfold outputRelPath
    simp only [h]

theorem c6_output_path_witness :
    renderTarget dupA = some (outputRelPath "/about/") ∧
    outputRelPath "/a/b.txt" = ["a", "b.txt"] := by
  constructor
  · exact c6_output_path.2.2.1 dupA "/about/" (by decide)
  · rw [c6_output_path.2.2.2 "/a/b.txt" "b.txt" (by decide)]
    decide

/-- C7 (confirmed): with two documents both declaring `permalink: "/about/"`
both pages appear in the index, the auditor emits exactly one diagnostic
naming both titles and the shared permalink; in general a permalink with
`k` owners draws `k - 1` diagnostics (one per owner after the first seen);
and the auditor is a pure observer — the build goes on to render every page
and emit both artifacts from the unchanged index. -/
theorem c7_duplicate_permalinks :
    build_index (fun s => s) [docAboutA, docAboutB] =
      [mkRecord (fun s => s) docAboutA, mkRecord (fun s => s) docAboutB] ∧
    check_for_duplicate_permalinks (build_index (fun s => s) [docAboutA, docAboutB]) =
      [(vStr "About A", vStr "About B", vStr "/about/")] ∧
    (∀ (index : List PageRecord) (p : Val),
        diagsForCount p (check_for_duplicate_permalinks index) = ownersCount p index - 1) ∧
    (∀ (f : String → String) (docs : List Document),
        (mainArtifacts f docs).rendered = render_pages_targets (build_index f docs) ∧
        (mainArtifacts f docs).search_pages = generate_search_index (build_index f docs) ∧
        (mainArtifacts f docs).sitemap =
          generate_sitemap_entries (generate_search_index (build_index f docs))) := by
  refine ⟨by decide, by decide, ?_, fun f docs => ⟨rfl, rfl, rfl⟩⟩
  intro index p
  unfold check_for_duplicate_permalinks
  rw [auditGo_count p index []]
  have h : auditSeenFind [] p = none := rfl
  rw [h]
  rfl

/-- C2 (confirmed): a document is kept out of the page index exactly when a
required key (`title`, `desc`, `image`, `template`) is missing from its
metadata; adding keys never invalidates a document, unknown keys only raise
the warning flag; and the search index (hence the sitemap, which is built
from it) and the renderer only ever see records of the index. -/
theorem c2_validation (f : String → String) (docs : List Document) :
    build_index f docs =
      (docs.filter (fun d => (validate_frontmatter d.meta).valid)).map (mkRecord f) ∧
    (∀ m : Meta, (validate_frontmatter m).valid = true ↔ missingKeys m = []) ∧
    (∀ m : Meta, (validate_frontmatter m).valid = true ↔
        ∀ k ∈ REQUIRED_KEYS, hasKey m k = true) ∧
    (∀ (m : Meta) (k : String) (v : Val), (validate_frontmatter m).valid = true →
        (validate_frontmatter ((k, v) :: m)).valid = true) ∧
    (∀ m : Meta, (validate_frontmatter m).warned = true ↔ unknownKeys m ≠ []) ∧
    (∀ r : PageRecord, r ∈ (mainArtifacts f docs).search_pages → r ∈ build_index f docs) ∧
    (mainArtifacts f docs).rendered = (build_index f docs).map renderTarget := by
  have hviff : ∀ m : Meta, (validate_frontmatter m).valid = true ↔ missingKeys m = [] := by
    intro m
    simp [validate_frontmatter]
  have hvkeys : ∀ m : Meta, (validate_frontmatter m).valid = true ↔
      ∀ k ∈ REQUIRED_KEYS, hasKey m k = true := by
    intro m
    rw [hviff m]
    unfold missingKeys
    rw [List.filter_eq_nil_iff]
    simp
  refine ⟨filterMap_if_eq_filter_map _ _ docs, hviff, hvkeys, ?_, ?_, ?_, rfl⟩
  · intro m k v h
    rw [hvkeys] at h ⊢
    intro k2 hk2
    have h2 := h k2 hk2
    unfold hasKey at h2 ⊢
    by_cases he : k = k2
    · rw [List.find?_cons_of_pos _ (by simp [he])]
      rfl
    · rw [List.find?_cons_of_neg _ (by simp [he])]
      exact h2
  · intro m
    simp [validate_frontmatter]
  · intro r hr
    have hc2 : r ∈ generate_search_index (build_index f docs) := hr
    simp only [generate_search_index] at hc2
    exact (List.mem_filter.mp hc2).1

theorem c2_validation_witness :
    build_index (fun s => s) [demoDoc, docBad] = [mkRecord (fun s => s) demoDoc] ∧
    (validate_frontmatter docBad.meta).valid = false ∧
    (validate_frontmatter docBad.meta).warned = true := by
  have h := c2_validation (fun s => s) [demoDoc, docBad]
  refine ⟨?_, by decide, ?_⟩
  · rw [h.1]
    decide
  · exact (h.2.2.2.2.1 docBad.meta).mpr (by decide)

/-- C1 (corrected), counterexample to the claim as stated: the valid document
`demoExcl` carries `pages_exclude: true`; the build renders it to
`public/blog/secret/index.html`, but the generated sitemap contains no URL
entry at all — `main` feeds the sitemap generator the already-filtered
`searchable_pages`, so the page does not appear in the sitemap. -/
theorem c1_sitemap_counterexample :
    truthy (mkRecord (fun s => s) demoExcl).pages_exclude = true ∧
    (mainArtifacts (fun s => s) [demoExcl]).rendered =
      [some ["blog", "secret", "index.html"]] ∧
    (mainArtifacts (fun s => s) [demoExcl]).search_pages = [] ∧
    (mainArtifacts (fun s => s) [demoExcl]).sitemap = [] := by
  refine ⟨by decide, by decide, by decide, by decide⟩

/-- C1 (amended): a Page Record with truthy `pages_exclude` is omitted from
the search index and — because the sitemap is generated from the
search-index page list — from the sitemap as well, yet it is still rendered
to an output file. -/
theorem c1_excluded_page_artifacts (f : String → String) (docs : List Document)
    (r : PageRecord) (hmem : r ∈ build_index f docs)
    (hex : truthy r.pages_exclude = true) :
    r ∉ (mainArtifacts f docs).search_pages ∧
    (mainArtifacts f docs).sitemap =
      generate_sitemap_entries (mainArtifacts f docs).search_pages ∧
    renderTarget r ∈ (mainArtifacts f docs).rendered := by
  refine ⟨?_, rfl, ?_⟩
  · intro hc
    have hc2 : r ∈ generate_search_index (build_index f docs) := hc
    simp only [generate_search_index] at hc2
    have hp := (List.mem_filter.mp hc2).2
    rw [hex] at hp
    simp at hp
  · show renderTarget r ∈ (build_index f docs).map renderTarget
    exact List.mem_map_of_mem renderTarget hmem

theorem c1_excluded_page_artifacts_witness :
    mkRecord (fun s => s) demoExcl ∉ (mainArtifacts (fun s => s) [demoExcl]).search_pages ∧
    renderTarget (mkRecord (fun s => s) demoExcl) ∈
      (mainArtifacts (fun s => s) [demoExcl]).rendered := by
  have h := c1_excluded_page_artifacts (fun s => s) [demoExcl]
    (mkRecord (fun s => s) demoExcl) (by decide) (by decide)
  exact ⟨h.1, h.2.2⟩
